import Mathlib

/-!
Verification of the personal-task-manager core: task persistence
(create/update/delete), validation, the query/filter/sort engine and the
time-tracking state machine, shallowly embedded from the JavaScript source.

JavaScript strings are sequences of UTF-16 code units; we embed them as
`List Nat` of code units (`JStr`).  All example strings are ASCII, where
code units and code points coincide.  Timestamps (ISO-8601 strings produced
by `new Date().toISOString()`) are order-isomorphic to instants, so
`createdAt`/`updatedAt` are embedded as natural numbers (epoch ms).
-/

namespace TaskManager

/-- JavaScript string: list of UTF-16 code units. -/
abbrev JStr : Type := List Nat

/-- Converts a Lean string literal to its code-unit list (valid for BMP text). -/
def str (s : String) : JStr := s.data.map Char.toNat

/-- The whitespace test used by our model of JavaScript `String.prototype.trim`
(space, tab, line feed, carriage return; the full JS set is larger but the
extra characters never occur in this development). -/
def jsWS (n : Nat) : Bool := decide (n = 32 ∨ n = 9 ∨ n = 10 ∨ n = 13)

/-- Model of JS `trim()`: drop leading and trailing whitespace. -/
def jsTrim (s : JStr) : JStr :=
  ((s.dropWhile jsWS).reverse.dropWhile jsWS).reverse

/-- Model of JS `toLowerCase()` on one code unit (ASCII range, as in the data). -/
def lowerU (n : Nat) : Nat := if 65 ≤ n ∧ n ≤ 90 then n + 32 else n

/-- Model of JS `toLowerCase()`. -/
def jsLower (s : JStr) : JStr := s.map lowerU

/-- `isPrefixU needle hay`: does `hay` start with `needle`? -/
def isPrefixU : JStr → JStr → Bool
  | [], _ => true
  | _ :: _, [] => false
  | a :: as, b :: bs => a == b && isPrefixU as bs

/-- Model of JS `hay.includes(needle)`: substring test. -/
def jsIncludes (needle : JStr) : JStr → Bool
  | [] => isPrefixU needle []
  | a :: t => isPrefixU needle (a :: t) || jsIncludes needle t

/-! ## Data model (src/utils/storage.js, Task model)

`TaskRecord` is the plain-data shape persisted in the JSON file and produced
by `toJSON()`; `TaskData` is the possibly-partial input object accepted by
the `Task` constructor (`undefined` fields are `none`). -/

/-- The serialized task shape written to / read from the tasks file. -/
structure TaskRecord where
  id : JStr
  title : JStr
  description : JStr
  completed : Bool
  priority : JStr
  category : JStr
  dueDate : Option JStr
  createdAt : Nat
  updatedAt : Nat
  deriving Repr, DecidableEq

/-- A possibly-partial constructor input (`new Task(data)`); `none` models an
absent (`undefined`) field. -/
structure TaskData where
  id : Option JStr := none
  title : Option JStr := none
  description : Option JStr := none
  completed : Option Bool := none
  priority : Option JStr := none
  category : Option JStr := none
  dueDate : Option JStr := none
  createdAt : Option Nat := none
  updatedAt : Option Nat := none
  deriving Repr, DecidableEq

/-- The in-memory `Task` instance. -/
structure Task where
  id : JStr
  title : JStr
  description : JStr
  completed : Bool
  priority : JStr
  category : JStr
  dueDate : Option JStr
  createdAt : Nat
  updatedAt : Nat
  deriving Repr, DecidableEq

/-- JS `o || dflt` on an optional string field: absent or empty (falsy)
selects the default. -/
def orDef (o : Option JStr) (dflt : JStr) : JStr :=
  match o with
  | some s => if s = [] then dflt else s
  | none => dflt

/-- The `Task` constructor.  `freshId` stands for the `uuidv4()` call and
`now` for `new Date().toISOString()` (both evaluations of the clock in the
constructor are modelled at the same instant). -/
def Task.new (freshId : JStr) (now : Nat) (d : TaskData) : Task :=
  { id := orDef d.id freshId
    title := (d.title.getD [])          -- data.title || ''
    description := (d.description.getD [])
    completed := d.completed.getD false -- Boolean(data.completed)
    priority := orDef d.priority (str "medium")
    category := orDef d.category (str "general")
    dueDate :=                          -- data.dueDate || null
      match d.dueDate with
      | some s => if s = [] then none else some s
      | none => none
    createdAt := d.createdAt.getD now
    updatedAt := d.updatedAt.getD now }

/-- View a persisted record as a constructor input (every field present). -/
def TaskRecord.toData (r : TaskRecord) : TaskData :=
  { id := some r.id, title := some r.title, description := some r.description
    completed := some r.completed, priority := some r.priority
    category := some r.category, dueDate := r.dueDate
    createdAt := some r.createdAt, updatedAt := some r.updatedAt }

/-- `new Task(taskData)` as done by `findAll()` on each persisted record. -/
def Task.ofRecord (freshId : JStr) (now : Nat) (r : TaskRecord) : Task :=
  Task.new freshId now r.toData

/-- Result of `validate()`. -/
structure ValidationResult where
  isValid : Bool
  errors : List JStr
  deriving Repr, DecidableEq

def msgTitleRequired : JStr := str "Title is required"

def msgTitleTooLong : JStr := str "Title must be less than 200 characters"

def msgDescriptionTooLong : JStr := str "Description must be less than 1000 characters"

def msgPriorityInvalid : JStr := str "Priority must be high, medium, or low"

def msgCategoryTooLong : JStr := str "Category must be less than 50 characters"

def msgDueDateInvalid : JStr := str "Due date must be a valid date"

/-- `validate()` from the Task model.  `vd s` models
`!isNaN(new Date(s).getTime())` — whether `s` parses as a valid date; date
parsing is environment-provided, so it is a parameter of the model. -/
def Task.validateErrors (vd : JStr → Bool) (t : Task) : List JStr :=
  (if t.title = [] ∨ jsTrim t.title = [] then [msgTitleRequired] else [])
  ++ (if t.title ≠ [] ∧ 200 < t.title.length then [msgTitleTooLong] else [])
  ++ (if t.description ≠ [] ∧ 1000 < t.description.length then [msgDescriptionTooLong] else [])
  ++ (if t.priority ≠ [] ∧
        ¬ (t.priority = str "high" ∨ t.priority = str "medium" ∨ t.priority = str "low")
      then [msgPriorityInvalid] else [])
  ++ (if t.category ≠ [] ∧ 50 < t.category.length then [msgCategoryTooLong] else [])
  ++ (match t.dueDate with
      | some s => if s ≠ [] ∧ vd s = false then [msgDueDateInvalid] else []
      | none => [])

/-- `validate()` returns `{isValid: errors.length === 0, errors}`. -/
def Task.validate (vd : JStr → Bool) (t : Task) : ValidationResult :=
  { isValid := (Task.validateErrors vd t).isEmpty, errors := Task.validateErrors vd t }

/-- `touch()`: refresh `updatedAt`. -/
def Task.touch (now : Nat) (t : Task) : Task := { t with updatedAt := now }

/-- `toJSON()`: the plain-data form used for persistence and responses. -/
def Task.toJSON (t : Task) : TaskRecord :=
  { id := t.id
    title := jsTrim t.title
    description := jsTrim t.description
    completed := t.completed
    priority := if t.priority = [] then str "medium" else t.priority
    category := if t.category = [] then str "general" else t.category
    dueDate := t.dueDate
    createdAt := t.createdAt
    updatedAt := t.updatedAt }

/-- `getPriorityWeight()`: `{high:3, medium:2, low:1}[priority] || 2`. -/
def getPriorityWeight (p : JStr) : Nat :=
  if p = str "high" then 3
  else if p = str "medium" then 2
  else if p = str "low" then 1
  else 2

/-! ## Repository operations (Task model statics)

Each operation receives the persisted collection (`List TaskRecord`, the
contents of the tasks file) and returns its result together with the
collection as persisted after the call, so "no write" is stated as the
collection component being unchanged.  `freshId`/`now` model `uuidv4()` and
the clock for the single operation. -/

/-- Outcome of `Task.create`: a thrown validation error (file untouched) or
the created task plus the newly persisted collection. -/
inductive CreateResult where
  | invalid (errors : List JStr) (store : List TaskRecord)
  | created (task : Task) (store : List TaskRecord)
  deriving Repr, DecidableEq

/-- `Task.create(taskData)`: build, validate (throw with the full error list
before any write), else append and persist `tasks.map(t => t.toJSON())`. -/
def Task.create (vd : JStr → Bool) (freshId : JStr) (now : Nat)
    (d : TaskData) (store : List TaskRecord) : CreateResult :=
  let task := Task.new freshId now d
  let v := Task.validate vd task
  if v.isValid then
    let tasks := (store.map (Task.ofRecord freshId now)) ++ [task]
    .created task (tasks.map Task.toJSON)
  else .invalid v.errors store

/-- The update payload assembled by `PUT /:id` (only defined body fields are
included).  `dueDate = some none` is an explicit `dueDate: null`. -/
structure UpdateData where
  title : Option JStr := none
  description : Option JStr := none
  completed : Option Bool := none
  priority : Option JStr := none
  category : Option JStr := none
  dueDate : Option (Option JStr) := none
  deriving Repr, DecidableEq

/-- The field mutations `Task.update` performs on the found task before
`touch()`: only `title`, `description` and `completed` are applied — the
source ignores `priority`, `category` and `dueDate` in `updateData`. -/
def applyUpdate (now : Nat) (u : UpdateData) (t : Task) : Task :=
  let t1 := match u.title with | some x => { t with title := x } | none => t
  let t2 := match u.description with | some x => { t1 with description := x } | none => t1
  let t3 := match u.completed with | some x => { t2 with completed := x } | none => t2
  t3.touch now

/-- `findIndex` + in-place mutation of the first element satisfying `p`;
returns the new list and the mutated element, or `none` if no match. -/
def replaceFirst (p : α → Bool) (f : α → α) : List α → Option (List α × α)
  | [] => none
  | a :: as =>
    if p a then some (f a :: as, f a)
    else
      match replaceFirst p f as with
      | none => none
      | some (as', b) => some (a :: as', b)

/-- Outcome of `Task.update`: `null` (not found), a thrown validation error
(file untouched), or the updated task plus the newly persisted collection. -/
inductive UpdateResult where
  | notFound (store : List TaskRecord)
  | invalid (errors : List JStr) (store : List TaskRecord)
  | updated (task : Task) (store : List TaskRecord)
  deriving Repr, DecidableEq

/-- `Task.update(id, updateData)`: load all tasks, find the first with the
id, apply provided fields and `touch()`, re-validate the whole task, throw
(no write) if invalid, else persist every task via `toJSON()`. -/
def Task.update (vd : JStr → Bool) (freshId : JStr) (now : Nat)
    (tid : JStr) (u : UpdateData) (store : List TaskRecord) : UpdateResult :=
  let tasks := store.map (Task.ofRecord freshId now)
  match replaceFirst (fun t => t.id == tid) (applyUpdate now u) tasks with
  | none => .notFound store
  | some (tasks', t1) =>
    let v := Task.validate vd t1
    if v.isValid then .updated t1 (tasks'.map Task.toJSON)
    else .invalid v.errors store

/-! ## Query engine (GET / in src/routes/tasks.js) -/

/-- Filter parameters of the listing route (query string). -/
structure ListParams where
  status : JStr := str "all"
  priority : JStr := str "all"
  category : JStr := str "all"
  search : Option JStr := none
  deriving Repr, DecidableEq

/-- The status switch: `findByStatus(false)`, `findByStatus(true)` or
`findAll()`. -/
def statusStep (status : JStr) (tasks : List Task) : List Task :=
  if status = str "active" then tasks.filter (fun t => t.completed == false)
  else if status = str "completed" then tasks.filter (fun t => t.completed == true)
  else tasks

/-- The search filter: applied only when `search && search.trim()` is truthy;
keeps tasks whose lower-cased title, nonempty description or nonempty
category contains `search.toLowerCase().trim()`. -/
def searchStep (search : Option JStr) (tasks : List Task) : List Task :=
  match search with
  | none => tasks
  | some s =>
    if s ≠ [] ∧ jsTrim s ≠ [] then
      let q := jsTrim (jsLower s)
      tasks.filter (fun t =>
        jsIncludes q (jsLower t.title)
        || (t.description ≠ [] && jsIncludes q (jsLower t.description))
        || (t.category ≠ [] && jsIncludes q (jsLower t.category)))
    else tasks

/-- The priority filter: exact match unless `'all'`. -/
def priorityStep (priority : JStr) (tasks : List Task) : List Task :=
  if priority ≠ str "all" then tasks.filter (fun t => t.priority == priority) else tasks

/-- The category filter: exact match unless `'all'`. -/
def categoryStep (category : JStr) (tasks : List Task) : List Task :=
  if category ≠ str "all" then tasks.filter (fun t => t.category == category) else tasks

/-- The order produced by the route's sort comparator: `a` precedes `b` when
the comparator returns `≤ 0`, i.e. `a` has strictly greater priority weight,
or equal weight and `a.createdAt ≥ b.createdAt`. -/
def sortRel (a b : Task) : Prop :=
  getPriorityWeight b.priority < getPriorityWeight a.priority
  ∨ (getPriorityWeight a.priority = getPriorityWeight b.priority ∧ b.createdAt ≤ a.createdAt)

instance : DecidableRel sortRel := fun a b => by unfold sortRel; infer_instance

instance : IsTotal Task sortRel := ⟨fun a b => by unfold sortRel; omega⟩

instance : IsTrans Task sortRel := ⟨fun a b c => by unfold sortRel; omega⟩

/-- `tasks.sort(comparator)`: the route reorders the filtered tasks into
comparator-nondecreasing order; embedded as an insertion sort over
`sortRel`. -/
def sortStep (tasks : List Task) : List Task := List.insertionSort sortRel tasks

/-- The full listing path of `GET /`: status switch, search, priority and
category filters, then the sort. -/
def listTasks (freshId : JStr) (now : Nat) (params : ListParams)
    (store : List TaskRecord) : List Task :=
  sortStep (categoryStep params.category (priorityStep params.priority
    (searchStep params.search (statusStep params.status
      (store.map (Task.ofRecord freshId now))))))

/-! ## Store (src/utils/storage.js, readTasks) -/

/-- The backing file: absent, or present with content that either parses to
a record list or is unparseable (`JSON.parse` throws). -/
inductive FileState where
  | missing
  | stored (parsed : Option (List TaskRecord))
  deriving Repr, DecidableEq

/-- `readTasks()`: create the file with `[]` when missing; on a parse error
the catch block logs and returns `[]`; otherwise return the parsed list.
Returns the list together with the resulting file state. -/
def readTasks : FileState → List TaskRecord × FileState
  | .missing => ([], .stored (some []))
  | .stored none => ([], .stored none)
  | .stored (some l) => (l, .stored (some l))

/-! ## Timer Coordinator

The current Task model file (`src/models/Task.js`, imported by
`src/routes/tasks.js`) is not part of the available sources — only its
callers (the timer routes) and its tests are — so the time-tracking
operations are modelled from the specification (§3 TimeTracking, §4.5 Timer
Coordinator). -/

/-- Modelled from the spec: one finalized time-tracking session
(`{start, end, duration}`) of the missing `src/models/Task.js`. -/
structure Session where
  start : Nat
  finish : Nat
  duration : Nat
  deriving Repr, DecidableEq

/-- Modelled from the spec: the per-task `timeTracking` sub-entity of the
missing `src/models/Task.js`. -/
structure TimeTracking where
  isActive : Bool
  activeSessionStart : Option Nat
  sessions : List Session
  totalTime : Nat
  deriving Repr, DecidableEq

/-- Modelled from the spec: the slice of a task the Timer Coordinator of the
missing `src/models/Task.js` operates on. -/
structure TTask where
  id : JStr
  timeTracking : TimeTracking
  deriving Repr, DecidableEq

/-- Modelled from the spec: finalizing the open session of a `RUNNING` task
exactly as `stop` does — append `{start, end: now, duration: now - start}`,
add the duration to `totalTime`, transition to `IDLE`.  A `RUNNING` task
always carries `activeSessionStart`; the `getD now` default only covers the
unreachable missing case. -/
def finalizeSession (now : Nat) (tt : TimeTracking) : TimeTracking :=
  let s := tt.activeSessionStart.getD now
  { isActive := false
    activeSessionStart := none
    sessions := tt.sessions ++ [{ start := s, finish := now, duration := now - s }]
    totalTime := tt.totalTime + (now - s) }

/-- Timer operation failures (§7): missing task or conflict. -/
inductive TimerErr where
  | notFound
  | alreadyActive
  | noActiveSession
  deriving Repr, DecidableEq

/-- Modelled from the spec: the per-task effect of `start(taskId)` — the
target opens a session, every other running task is implicitly stopped,
idle non-targets are untouched. -/
def startTransition (now : Nat) (tid : JStr) (u : TTask) : TTask :=
  if u.id == tid then
    { u with timeTracking :=
        { u.timeTracking with isActive := true, activeSessionStart := some now } }
  else if u.timeTracking.isActive then
    { u with timeTracking := finalizeSession now u.timeTracking }
  else u

/-- Modelled from the spec: the per-task effect of `stop(taskId)` — the
target's open session is finalized, every other task is untouched. -/
def stopTransition (now : Nat) (tid : JStr) (u : TTask) : TTask :=
  if u.id == tid then { u with timeTracking := finalizeSession now u.timeTracking }
  else u

/-- Modelled from the spec: the per-task effect of `stopAll()` — every
running task's open session is finalized. -/
def stopAllTransition (now : Nat) (u : TTask) : TTask :=
  if u.timeTracking.isActive then
    { u with timeTracking := finalizeSession now u.timeTracking }
  else u

/-- Modelled from the spec: `start(taskId)` of the missing
`src/models/Task.js` — not-found error, "already active" conflict when the
target itself is `RUNNING`, otherwise implicit stop of every other running
task before opening a session on the target. -/
def startTimer (now : Nat) (tid : JStr) (ts : List TTask) :
    Except TimerErr (List TTask) :=
  match ts.find? (fun t => t.id == tid) with
  | none => .error .notFound
  | some t =>
    if t.timeTracking.isActive then .error .alreadyActive
    else .ok (ts.map (startTransition now tid))

/-- Modelled from the spec: `stop(taskId)` of the missing
`src/models/Task.js` — not-found error, "no active session" conflict when
the target is not `RUNNING`, otherwise finalize its open session. -/
def stopTimer (now : Nat) (tid : JStr) (ts : List TTask) :
    Except TimerErr (List TTask) :=
  match ts.find? (fun t => t.id == tid) with
  | none => .error .notFound
  | some t =>
    if t.timeTracking.isActive then .ok (ts.map (stopTransition now tid))
    else .error .noActiveSession

/-- Modelled from the spec: `stopAll()` of the missing `src/models/Task.js`
— finalize every running task, returning the stopped tasks and the new
collection. -/
def stopAllTimers (now : Nat) (ts : List TTask) : List TTask × List TTask :=
  (ts.filter (fun t => t.timeTracking.isActive), ts.map (stopAllTransition now))

/-- One externally triggered timer call. -/
inductive TimerOp where
  | timerStart (now : Nat) (tid : JStr)
  | timerStop (now : Nat) (tid : JStr)
  | timerStopAll (now : Nat)
  deriving Repr, DecidableEq

/-- The collection after one timer call: a failed call returns an error
response and leaves the persisted collection unchanged. -/
def applyTimerOp (op : TimerOp) (ts : List TTask) : List TTask :=
  match op with
  | .timerStart now tid =>
    match startTimer now tid ts with
    | .ok ts' => ts'
    | .error _ => ts
  | .timerStop now tid =>
    match stopTimer now tid ts with
    | .ok ts' => ts'
    | .error _ => ts
  | .timerStopAll now => (stopAllTimers now ts).2

/-- The collection after a sequence of timer calls. -/
def runTimerOps (ops : List TimerOp) (ts : List TTask) : List TTask :=
  ops.foldl (fun s op => applyTimerOp op s) ts

/-- How many tasks currently have an open session. -/
def countActive (ts : List TTask) : Nat :=
  (ts.filter (fun t => t.timeTracking.isActive)).length

/-! ## Helper lemmas -/

lemma mem_ite_singleton {c : Prop} [Decidable c] (a b : α) :
    (a ∈ if c then [b] else []) ↔ c ∧ a = b := by
  by_cases h : c <;> simp [h]

/-- The exact condition under which each violation message appears in
`validate()`'s error list. -/
def errSpec (vd : JStr → Bool) (t : Task) (msg : JStr) : Prop :=
  ((t.title = [] ∨ jsTrim t.title = []) ∧ msg = msgTitleRequired)
  ∨ ((t.title ≠ [] ∧ 200 < t.title.length) ∧ msg = msgTitleTooLong)
  ∨ ((t.description ≠ [] ∧ 1000 < t.description.length) ∧ msg = msgDescriptionTooLong)
  ∨ ((t.priority ≠ [] ∧
      ¬ (t.priority = str "high" ∨ t.priority = str "medium" ∨ t.priority = str "low"))
      ∧ msg = msgPriorityInvalid)
  ∨ ((t.category ≠ [] ∧ 50 < t.category.length) ∧ msg = msgCategoryTooLong)
  ∨ (∃ s, t.dueDate = some s ∧ (s ≠ [] ∧ vd s = false) ∧ msg = msgDueDateInvalid)

/-- `validate()` reports a message iff the corresponding rule is violated:
the returned list is complete, not just the first violation. -/
lemma validate_mem_errors_iff (vd : JStr → Bool) (t : Task) (msg : JStr) :
    msg ∈ (Task.validate vd t).errors ↔ errSpec vd t msg := by
  rcases ht : t.dueDate with _ | s <;>
    simp only [Task.validate, Task.validateErrors, errSpec, ht, List.mem_append,
      mem_ite_singleton, Option.some.injEq, exists_eq_left, exists_eq_left', reduceCtorEq,
      false_and, and_false, exists_false, or_false, or_assoc, List.mem_nil_iff]

/-! ## Claim theorems -/

/-- **C8** — `Store.load` never fails its caller due to file state: a
missing backing file is created holding the empty sequence and `[]` is
returned; an unparseable file is tolerated (the catch block logs) and `[]`
is returned; a parseable file returns its contents. -/
theorem C8_readTasks_tolerant :
    readTasks .missing = ([], .stored (some []))
    ∧ readTasks (.stored none) = ([], .stored none)
    ∧ ∀ l, readTasks (.stored (some l)) = (l, .stored (some l)) :=
  ⟨rfl, rfl, fun _ => rfl⟩

/-- **C6** — every collection returned by the listing path is sorted so that
each adjacent pair `(a, b)` satisfies `priorityWeight a > priorityWeight b`,
or equal weights and `a.createdAt ≥ b.createdAt`, with `priorityWeight`
mapping high to 3, medium to 2, low to 1 and anything else to 2. -/
theorem C6_listing_sorted (freshId : JStr) (now : Nat) (params : ListParams)
    (store : List TaskRecord) :
    List.Chain' sortRel (listTasks freshId now params store) := by
  unfold listTasks sortStep
  exact (List.sorted_insertionSort sortRel _).chain'

/-- **C4** — when the built task fails validation, `create` raises a
validation error carrying the complete violation list (each rule's message
is present iff that rule is violated) and performs no write: the persisted
collection is returned exactly as it was. -/
theorem C4_create_invalid_no_write (vd : JStr → Bool) (freshId : JStr) (now : Nat)
    (d : TaskData) (store : List TaskRecord)
    (hv : (Task.validate vd (Task.new freshId now d)).isValid = false) :
    Task.create vd freshId now d store
      = .invalid (Task.validate vd (Task.new freshId now d)).errors store
    ∧ ∀ msg, msg ∈ (Task.validate vd (Task.new freshId now d)).errors
        ↔ errSpec vd (Task.new freshId now d) msg := by
  refine ⟨?_, fun msg => validate_mem_errors_iff vd (Task.new freshId now d) msg⟩
  simp [Task.create, hv]

/-- Witness for C4 at a concrete invalid creation (missing title). -/
theorem C4_witness :
    Task.create (fun _ => true) (str "u") 0 { title := none } []
      = .invalid (Task.validate (fun _ => true) (Task.new (str "u") 0 { title := none })).errors
          [] :=
  (C4_create_invalid_no_write (fun _ => true) (str "u") 0 { title := none } [] (by decide)).1

/-- Title used to refute C5 as stated: one letter followed by 200 spaces,
so the trimmed title is a non-empty string of length 1 ≤ 200 while the raw
length is 201. -/
def cexTask : Task :=
  { id := str "x", title := 97 :: List.replicate 200 32, description := []
    completed := false, priority := str "medium", category := str "general"
    dueDate := none, createdAt := 0, updatedAt := 0 }

/-- **C5 counterexample** — a task whose title is, after trimming, a
non-empty string of at most 200 characters, for which `validate()`
nevertheless reports a title violation: the 200-character limit is checked
on the raw title, not the trimmed one. -/
theorem C5_counterexample :
    (jsTrim cexTask.title ≠ [] ∧ (jsTrim cexTask.title).length ≤ 200)
    ∧ msgTitleTooLong ∈ (Task.validate (fun _ => true) cexTask).errors := by
  set_option maxRecDepth 4000 in decide

/-- **C5 (amended)** — `validate()` is a total function; it returns the
complete list of violations (each rule's message is present iff that rule
is violated); and it reports no title violation for any task whose title is
non-empty after trimming and whose *raw* length is at most 200 characters
(the source checks the 200-character limit before trimming). -/
theorem C5_validate_complete_amended (vd : JStr → Bool) (t : Task) :
    ((Task.validate vd t).isValid = true ↔ (Task.validate vd t).errors = [])
    ∧ (∀ msg, msg ∈ (Task.validate vd t).errors ↔ errSpec vd t msg)
    ∧ (jsTrim t.title ≠ [] → t.title.length ≤ 200 →
        msgTitleRequired ∉ (Task.validate vd t).errors
        ∧ msgTitleTooLong ∉ (Task.validate vd t).errors) := by
  refine ⟨?_, fun msg => validate_mem_errors_iff vd t msg, fun h1 h2 => ⟨?_, ?_⟩⟩
  · simp [Task.validate, List.isEmpty_iff]
  · rw [validate_mem_errors_iff]
    rintro (⟨hc, _⟩ | ⟨_, he⟩ | ⟨_, he⟩ | ⟨_, he⟩ | ⟨_, he⟩ | ⟨_, _, _, he⟩)
    · rcases hc with h | h
      · exact h1 (by rw [h]; rfl)
      · exact h1 h
    all_goals exact absurd he (by decide)
  · rw [validate_mem_errors_iff]
    rintro (⟨_, he⟩ | ⟨⟨_, hlen⟩, _⟩ | ⟨_, he⟩ | ⟨_, he⟩ | ⟨_, he⟩ | ⟨_, _, _, he⟩)
    · exact absurd he (by decide)
    · omega
    all_goals exact absurd he (by decide)

/-- Witness for C5 (amended) at a concrete valid title. -/
theorem C5_witness :
    msgTitleRequired
        ∉ (Task.validate (fun _ => true)
            (Task.new (str "u") 0 { title := some (str "Buy groceries") })).errors
    ∧ msgTitleTooLong
        ∉ (Task.validate (fun _ => true)
            (Task.new (str "u") 0 { title := some (str "Buy groceries") })).errors :=
  (C5_validate_complete_amended (fun _ => true)
    (Task.new (str "u") 0 { title := some (str "Buy groceries") })).2.2
    (by decide) (by decide)

/-- **C9** — a valid creation (the route passes no id and no timestamps)
returns a task whose id is the freshly generated one, distinct from every
id already in the collection, and whose `createdAt` equals `updatedAt`. -/
theorem C9_create_fresh_id_equal_timestamps (vd : JStr → Bool) (freshId : JStr)
    (now : Nat) (d : TaskData) (store : List TaskRecord)
    (hid : d.id = none) (hca : d.createdAt = none) (hua : d.updatedAt = none)
    (hfresh : ∀ r ∈ store, r.id ≠ freshId)
    (hv : (Task.validate vd (Task.new freshId now d)).isValid = true) :
    ∃ st', Task.create vd freshId now d store = .created (Task.new freshId now d) st'
      ∧ (Task.new freshId now d).id = freshId
      ∧ (Task.new freshId now d).createdAt = (Task.new freshId now d).updatedAt
      ∧ ∀ r ∈ store, r.id ≠ (Task.new freshId now d).id := by
  refine ⟨((store.map (Task.ofRecord freshId now)) ++ [Task.new freshId now d]).map Task.toJSON,
    ?_, ?_, ?_, ?_⟩
  · simp [Task.create, hv]
  · simp [Task.new, hid, orDef]
  · simp [Task.new, hca, hua]
  · intro r hr
    simpa [Task.new, hid, orDef] using hfresh r hr

/-- Sample persisted record used by concrete witnesses. -/
def recA : TaskRecord :=
  { id := str "t1", title := str "Task one", description := []
    completed := false, priority := str "low", category := str "general"
    dueDate := some (str "2025-09-15T16:00:00.000Z")
    createdAt := 100, updatedAt := 100 }

/-- Witness for C9 at a concrete valid creation. -/
theorem C9_witness :
    ∃ st', Task.create (fun _ => true) (str "u2") 7
          { title := some (str "Buy groceries") } [recA]
        = .created (Task.new (str "u2") 7 { title := some (str "Buy groceries") }) st'
      ∧ (Task.new (str "u2") 7 { title := some (str "Buy groceries") }).id = str "u2"
      ∧ (Task.new (str "u2") 7 { title := some (str "Buy groceries") }).createdAt
          = (Task.new (str "u2") 7 { title := some (str "Buy groceries") }).updatedAt
      ∧ ∀ r ∈ [recA], r.id
          ≠ (Task.new (str "u2") 7 { title := some (str "Buy groceries") }).id :=
  C9_create_fresh_id_equal_timestamps (fun _ => true) (str "u2") 7
    { title := some (str "Buy groceries") } [recA] rfl rfl rfl (by decide) (by decide)

/-- The update payload of the C1 failing input: `{priority: "high",
dueDate: null}` as assembled by `PUT /:id`. -/
def c1update : UpdateData := { priority := some (str "high"), dueDate := some none }

/-- **C1** — evaluating `Task.update` at the failing input: the stored task
has priority "low" and a due date; the partial sets `priority: "high"` and
`dueDate: null`; the update succeeds but returns the task with priority
still "low" and the due date still present, because `Task.update` applies
only `title`, `description` and `completed` from the partial, contradicting
the claim (and the repository's own tests). -/
theorem C1_update_drops_new_fields :
    ∃ t st', Task.update (fun _ => true) (str "u") 200 (str "t1") c1update [recA]
        = .updated t st'
      ∧ t.priority = str "low"
      ∧ t.dueDate = some (str "2025-09-15T16:00:00.000Z")
      ∧ t.updatedAt = 200 := by
  refine ⟨_, _, rfl, ?_, ?_, ?_⟩ <;> decide

lemma jsWS_lowerU (n : Nat) : jsWS (lowerU n) = jsWS n := by
  unfold lowerU jsWS
  split
  · rename_i h
    exact decide_eq_decide.mpr (by omega)
  · rfl

lemma jsWS_comp_lowerU : jsWS ∘ lowerU = jsWS := funext jsWS_lowerU

/-- Lower-casing and trimming commute (lower-casing maps no character into
or out of the whitespace set), so `search.toLowerCase().trim()` is the
lower-cased trimmed search string. -/
lemma jsTrim_jsLower (s : JStr) : jsTrim (jsLower s) = jsLower (jsTrim s) := by
  unfold jsTrim jsLower
  rw [List.dropWhile_map, jsWS_comp_lowerU, ← List.map_reverse, List.dropWhile_map,
    jsWS_comp_lowerU, ← List.map_reverse]

/-- The search predicate exactly as the claim words it: the lower-cased
trimmed search string is a substring of the lower-cased title, of the
lower-cased description (when present), or of the lower-cased category
(when present). -/
def claimSearchMatch (q : JStr) (t : Task) : Bool :=
  jsIncludes (jsLower (jsTrim q)) (jsLower t.title)
  || (t.description ≠ [] && jsIncludes (jsLower (jsTrim q)) (jsLower t.description))
  || (t.category ≠ [] && jsIncludes (jsLower (jsTrim q)) (jsLower t.category))

/-- **C7** — for every collection and search string, a search that is
non-empty after trimming keeps exactly the tasks matching
`claimSearchMatch`; an empty or whitespace-only (or absent) search keeps
every task unchanged. -/
theorem C7_search_filter (q : JStr) (tasks : List Task) :
    (jsTrim q ≠ [] → searchStep (some q) tasks = tasks.filter (claimSearchMatch q))
    ∧ (jsTrim q = [] → searchStep (some q) tasks = tasks)
    ∧ searchStep none tasks = tasks := by
  refine ⟨?_, ?_, rfl⟩
  · intro hq
    have hq' : q ≠ [] := by
      intro h
      rw [h] at hq
      exact hq rfl
    simp only [searchStep]
    rw [if_pos ⟨hq', hq⟩, jsTrim_jsLower]
    rfl
  · intro hq
    simp only [searchStep]
    rw [if_neg]
    rintro ⟨-, h⟩
    exact h hq

/-- Witness for C7: a matching search and a whitespace-only search. -/
theorem C7_witness :
    searchStep (some (str "GROCER"))
        [Task.new (str "u") 0 { title := some (str "Buy groceries") }]
      = [Task.new (str "u") 0 { title := some (str "Buy groceries") }].filter
          (claimSearchMatch (str "GROCER"))
    ∧ searchStep (some (str "  "))
        [Task.new (str "u") 0 { title := some (str "Buy groceries") }]
      = [Task.new (str "u") 0 { title := some (str "Buy groceries") }] :=
  ⟨(C7_search_filter (str "GROCER") _).1 (by decide),
   (C7_search_filter (str "  ") _).2.1 (by decide)⟩

/-! ### Timer invariant lemmas -/

lemma startTransition_id (now : Nat) (tid : JStr) (u : TTask) :
    (startTransition now tid u).id = u.id := by
  unfold startTransition
  split
  · rfl
  · split <;> rfl

lemma stopTransition_id (now : Nat) (tid : JStr) (u : TTask) :
    (stopTransition now tid u).id = u.id := by
  unfold stopTransition
  split <;> rfl

lemma stopAllTransition_id (now : Nat) (u : TTask) :
    (stopAllTransition now u).id = u.id := by
  unfold stopAllTransition
  split <;> rfl

/-- After a successful start the active flag of each task says exactly
"this is the target". -/
lemma startTransition_isActive (now : Nat) (tid : JStr) (u : TTask) :
    (startTransition now tid u).timeTracking.isActive = (u.id == tid) := by
  unfold startTransition
  split
  · rename_i h
    exact h.symm
  · rename_i h
    rw [Bool.not_eq_true] at h
    rw [h]
    split
    · rfl
    · rename_i h2
      rw [Bool.not_eq_true] at h2
      exact h2

lemma stopTransition_isActive (now : Nat) (tid : JStr) (u : TTask)
    (h : (stopTransition now tid u).timeTracking.isActive = true) :
    u.timeTracking.isActive = true := by
  revert h
  unfold stopTransition
  split
  · intro h
    exact absurd h (by simp [finalizeSession])
  · exact id

lemma stopAllTransition_isActive (now : Nat) (u : TTask) :
    (stopAllTransition now u).timeTracking.isActive = false := by
  unfold stopAllTransition
  split
  · rfl
  · rename_i h
    rw [Bool.not_eq_true] at h
    exact h

lemma map_TTask_id (f : TTask → TTask) (hf : ∀ u, (f u).id = u.id) (ts : List TTask) :
    (ts.map f).map TTask.id = ts.map TTask.id := by
  induction ts with
  | nil => rfl
  | cons a l ih => simp [hf a, ih]

lemma countActive_countP (ts : List TTask) :
    countActive ts = ts.countP (fun t => t.timeTracking.isActive) :=
  (List.countP_eq_length_filter _ _).symm

/-- With pairwise-distinct ids, at most one task matches a given id. -/
lemma countP_id_le_one (ts : List TTask) (tid : JStr)
    (h : (ts.map TTask.id).Nodup) :
    ts.countP (fun u => u.id == tid) ≤ 1 := by
  induction ts with
  | nil => simp
  | cons a l ih =>
    rw [List.map_cons, List.nodup_cons] at h
    rw [List.countP_cons]
    by_cases ha : (a.id == tid) = true
    · have hzero : l.countP (fun u => u.id == tid) = 0 := by
        rw [List.countP_eq_zero]
        intro u hu hcontra
        simp only [beq_iff_eq] at ha hcontra
        exact h.1 (by rw [ha, ← hcontra]; exact List.mem_map_of_mem TTask.id hu)
      simp [ha, hzero]
    · simp [ha, ih h.2]

/-- One timer call preserves distinct ids and "at most one active". -/
lemma applyTimerOp_inv (op : TimerOp) (ts : List TTask)
    (hn : (ts.map TTask.id).Nodup) (hc : countActive ts ≤ 1) :
    ((applyTimerOp op ts).map TTask.id).Nodup ∧ countActive (applyTimerOp op ts) ≤ 1 := by
  cases op with
  | timerStart now tid =>
    simp only [applyTimerOp, startTimer]
    cases hf : ts.find? (fun t => t.id == tid) with
    | none => exact ⟨hn, hc⟩
    | some t =>
      by_cases hi : t.timeTracking.isActive = true
      · simp only [hi, if_true]
        exact ⟨hn, hc⟩
      · simp only [hi, if_false, Bool.false_eq_true, ite_false]
        constructor
        · rw [map_TTask_id _ (startTransition_id now tid)]
          exact hn
        · rw [countActive_countP, List.countP_map]
          have hcomp : ((fun t => t.timeTracking.isActive) ∘ startTransition now tid)
              = (fun u => u.id == tid) :=
            funext fun u => startTransition_isActive now tid u
          rw [hcomp]
          exact countP_id_le_one ts tid hn
  | timerStop now tid =>
    simp only [applyTimerOp, stopTimer]
    cases hf : ts.find? (fun t => t.id == tid) with
    | none => exact ⟨hn, hc⟩
    | some t =>
      by_cases hi : t.timeTracking.isActive = true
      · simp only [hi, if_true]
        constructor
        · rw [map_TTask_id _ (stopTransition_id now tid)]
          exact hn
        · rw [countActive_countP, List.countP_map]
          calc ts.countP ((fun t => t.timeTracking.isActive) ∘ stopTransition now tid)
              ≤ ts.countP (fun t => t.timeTracking.isActive) :=
                List.countP_mono_left (fun u _ h => stopTransition_isActive now tid u h)
            _ = countActive ts := (countActive_countP ts).symm
            _ ≤ 1 := hc
      · simp only [hi, if_false, Bool.false_eq_true, ite_false]
        exact ⟨hn, hc⟩
  | timerStopAll now =>
    simp only [applyTimerOp, stopAllTimers]
    constructor
    · rw [map_TTask_id _ (stopAllTransition_id now)]
      exact hn
    · rw [countActive_countP, List.countP_map]
      have hzero : ts.countP ((fun t => t.timeTracking.isActive) ∘ stopAllTransition now) = 0 :=
        List.countP_eq_zero.mpr fun u _ => by
          simp [Function.comp, stopAllTransition_isActive]
      omega

lemma runTimerOps_inv (ops : List TimerOp) :
    ∀ ts : List TTask, (ts.map TTask.id).Nodup → countActive ts ≤ 1 →
      ((runTimerOps ops ts).map TTask.id).Nodup ∧ countActive (runTimerOps ops ts) ≤ 1 := by
  induction ops with
  | nil => exact fun ts hn hc => ⟨hn, hc⟩
  | cons op ops ih =>
    intro ts hn hc
    have h := applyTimerOp_inv op ts hn hc
    exact ih _ h.1 h.2

/-- **C2** — starting from a collection with pairwise-distinct ids in which
no task has an active timer, after any sequence of timer start, stop and
stop-all calls at most one task has `timeTracking.isActive`. -/
theorem C2_at_most_one_active_timer (ops : List TimerOp) (ts : List TTask)
    (hids : (ts.map TTask.id).Nodup)
    (h0 : ∀ t ∈ ts, t.timeTracking.isActive = false) :
    countActive (runTimerOps ops ts) ≤ 1 := by
  have hc : countActive ts ≤ 1 := by
    have hzero : countActive ts = 0 := by
      rw [countActive_countP, List.countP_eq_zero]
      intro a ha
      simp [h0 a ha]
    omega
  exact (runTimerOps_inv ops ts hids hc).2

/-- An idle time-tracking record. -/
def idleTT : TimeTracking :=
  { isActive := false, activeSessionStart := none, sessions := [], totalTime := 0 }

/-- Witness for C2 on a concrete two-task collection and call sequence. -/
theorem C2_witness :
    countActive (runTimerOps
      [.timerStart 5 (str "a"), .timerStart 9 (str "b"),
       .timerStop 12 (str "b"), .timerStopAll 15]
      [{ id := str "a", timeTracking := idleTT },
       { id := str "b", timeTracking := idleTT }]) ≤ 1 :=
  C2_at_most_one_active_timer _ _ (by decide) (by decide)

/-- `find?` commutes with an id-preserving map. -/
lemma find?_map_id_preserving (ts : List TTask) (f : TTask → TTask)
    (hf : ∀ u, (f u).id = u.id) (xid : JStr) (X : TTask)
    (hX : ts.find? (fun t => t.id == xid) = some X) :
    (ts.map f).find? (fun t => t.id == xid) = some (f X) := by
  rw [List.find?_map]
  have hcomp : ((fun t : TTask => t.id == xid) ∘ f) = (fun t => t.id == xid) :=
    funext fun u => by simp [Function.comp, hf u]
  rw [hcomp, hX]
  rfl

/-- **C3** — timer-start asymmetry: starting the already-running task `A`
fails with the "already active" conflict and mutates nothing, while
starting a different idle task `B` succeeds, finalizing `A`'s open session
exactly as `stop` would (one appended session entry `{start, end: now,
duration: now - start}`, `totalTime` increased by that duration, `A` left
idle, and the same resulting `A` as an explicit stop) before `B`
transitions to running. -/
theorem C3_start_asymmetry (now s : Nat) (aId bId : JStr) (ts : List TTask)
    (A B : TTask)
    (hA : ts.find? (fun t => t.id == aId) = some A)
    (hArun : A.timeTracking.isActive = true)
    (hAst : A.timeTracking.activeSessionStart = some s)
    (hB : ts.find? (fun t => t.id == bId) = some B)
    (hBidle : B.timeTracking.isActive = false) :
    startTimer now aId ts = .error .alreadyActive
    ∧ applyTimerOp (.timerStart now aId) ts = ts
    ∧ ∃ ts', startTimer now bId ts = .ok ts'
        ∧ ts'.find? (fun t => t.id == aId)
            = some { A with timeTracking := finalizeSession now A.timeTracking }
        ∧ (finalizeSession now A.timeTracking).sessions
            = A.timeTracking.sessions
              ++ [{ start := s, finish := now, duration := now - s }]
        ∧ (finalizeSession now A.timeTracking).totalTime
            = A.timeTracking.totalTime + (now - s)
        ∧ (finalizeSession now A.timeTracking).isActive = false
        ∧ (∃ tsStop, stopTimer now aId ts = .ok tsStop
            ∧ tsStop.find? (fun t => t.id == aId)
                = ts'.find? (fun t => t.id == aId))
        ∧ ts'.find? (fun t => t.id == bId)
            = some { B with timeTracking :=
                { B.timeTracking with
                  isActive := true
                  activeSessionStart := some now } } := by
  have hAid : (A.id == aId) = true := by
    have h := List.find?_some hA
    simpa using h
  have hBid : (B.id == bId) = true := by
    have h := List.find?_some hB
    simpa using h
  have hne : aId ≠ bId := by
    intro h
    subst h
    rw [hA] at hB
    injection hB with hB'
    rw [hB'] at hArun
    rw [hArun] at hBidle
    cases hBidle
  have hABid : (A.id == bId) = false := by
    rw [beq_eq_false_iff_ne]
    rw [beq_iff_eq] at hAid
    rw [hAid]
    exact hne
  have hTA : startTransition now bId A
      = { A with timeTracking := finalizeSession now A.timeTracking } := by
    unfold startTransition
    simp [hABid, hArun]
  have hTB : startTransition now bId B
      = { B with timeTracking :=
          { B.timeTracking with isActive := true, activeSessionStart := some now } } := by
    unfold startTransition
    simp [hBid]
  have hSA : stopTransition now aId A
      = { A with timeTracking := finalizeSession now A.timeTracking } := by
    unfold stopTransition
    simp [hAid]
  refine ⟨?_, ?_, ts.map (startTransition now bId), ?_, ?_, ?_, ?_, ?_,
    ⟨ts.map (stopTransition now aId), ?_, ?_⟩, ?_⟩
  · simp [startTimer, hA, hArun]
  · simp [applyTimerOp, startTimer, hA, hArun]
  · simp [startTimer, hB, hBidle]
  · rw [find?_map_id_preserving ts _ (startTransition_id now bId) aId A hA, hTA]
  · simp [finalizeSession, hAst]
  · simp [finalizeSession, hAst]
  · simp [finalizeSession]
  · simp [stopTimer, hA, hArun]
  · rw [find?_map_id_preserving ts _ (stopTransition_id now aId) aId A hA, hSA,
      find?_map_id_preserving ts _ (startTransition_id now bId) aId A hA, hTA]
  · rw [find?_map_id_preserving ts _ (startTransition_id now bId) bId B hB, hTB]

/-- A running time-tracking record whose session opened at instant 3. -/
def runTT : TimeTracking :=
  { isActive := true, activeSessionStart := some 3, sessions := [], totalTime := 0 }

/-- Witness for C3 on a concrete two-task collection. -/
theorem C3_witness :
    startTimer 10 (str "a")
        [{ id := str "a", timeTracking := runTT }, { id := str "b", timeTracking := idleTT }]
      = .error .alreadyActive :=
  (C3_start_asymmetry 10 3 (str "a") (str "b")
    [{ id := str "a", timeTracking := runTT }, { id := str "b", timeTracking := idleTT }]
    { id := str "a", timeTracking := runTT } { id := str "b", timeTracking := idleTT }
    (by decide) rfl rfl (by decide) rfl).1

/-! ### Frame property of `Task.update` -/

/-- A persisted record is well formed when it is a fixed point of the
load-then-serialize round trip: non-empty id, trimmed title and
description, non-empty priority and category, and no empty due-date
string.  Every record the program itself writes has this shape, since all
writes go through `toJSON()`. -/
def WFRecord (r : TaskRecord) : Prop :=
  r.id ≠ [] ∧ jsTrim r.title = r.title ∧ jsTrim r.description = r.description
  ∧ r.priority ≠ [] ∧ r.category ≠ [] ∧ r.dueDate ≠ some []

instance : DecidablePred WFRecord := fun r => by unfold WFRecord; infer_instance

/-- Loading a well-formed record and serializing it back is the identity. -/
lemma toJSON_ofRecord (freshId : JStr) (now : Nat) (r : TaskRecord)
    (h : WFRecord r) :
    Task.toJSON (Task.ofRecord freshId now r) = r := by
  obtain ⟨h1, h2, h3, h4, h5, h6⟩ := h
  rcases r with ⟨rid, rtitle, rdesc, rcomp, rprio, rcat, rdue, rca, rua⟩
  simp only at h1 h2 h3 h4 h5 h6
  rcases rdue with _ | sdue
  · simp [Task.ofRecord, Task.new, TaskRecord.toData, Task.toJSON, orDef,
      h1, h2, h3, h4, h5]
  · have hs : sdue ≠ [] := by
      intro h
      rw [h] at h6
      exact h6 rfl
    simp [Task.ofRecord, Task.new, TaskRecord.toData, Task.toJSON, orDef,
      h1, h2, h3, h4, h5, hs]

/-- Loading a well-formed record keeps its id. -/
lemma ofRecord_id (freshId : JStr) (now : Nat) (r : TaskRecord)
    (h1 : r.id ≠ []) :
    (Task.ofRecord freshId now r).id = r.id := by
  simp [Task.ofRecord, Task.new, TaskRecord.toData, orDef, h1]

/-- Loading a record keeps its createdAt. -/
lemma ofRecord_createdAt (freshId : JStr) (now : Nat) (r : TaskRecord) :
    (Task.ofRecord freshId now r).createdAt = r.createdAt := rfl

/-- `applyUpdate` never touches id or createdAt. -/
lemma applyUpdate_id_createdAt (now : Nat) (u : UpdateData) (t : Task) :
    (applyUpdate now u t).id = t.id ∧ (applyUpdate now u t).createdAt = t.createdAt := by
  rcases u with ⟨ut, ud, uc, up, ucat, udd⟩
  rcases ut with _ | x <;> rcases ud with _ | y <;> rcases uc with _ | z <;>
    exact ⟨rfl, rfl⟩

/-- Serializing well-formed records is the identity, elementwise. -/
lemma map_toJSON_ofRecord (freshId : JStr) (now : Nat) (rs : List TaskRecord)
    (h : ∀ r ∈ rs, WFRecord r) :
    (rs.map (Task.ofRecord freshId now)).map Task.toJSON = rs := by
  induction rs with
  | nil => rfl
  | cons r rs ih =>
    simp only [List.map_cons, List.cons.injEq]
    exact ⟨toJSON_ofRecord freshId now r (h r (List.mem_cons_self r rs)),
      ih fun x hx => h x (List.mem_cons_of_mem r hx)⟩

/-- Structure of `Task.update`'s in-place mutation over a loaded
well-formed store: the store splits around the first record matching the
id, the persisted result changes only that position, and the updated task
is the loaded target with the update applied. -/
lemma update_frame_aux (freshId : JStr) (now : Nat)
    (tid : JStr) (u : UpdateData) :
    ∀ (store : List TaskRecord), (∀ r ∈ store, WFRecord r) →
    ∀ tasks' t1,
    replaceFirst (fun t => t.id == tid) (applyUpdate now u)
        (store.map (Task.ofRecord freshId now)) = some (tasks', t1) →
    ∃ pre r0 post, store = pre ++ r0 :: post
      ∧ tasks'.map Task.toJSON = pre ++ Task.toJSON t1 :: post
      ∧ (∀ r ∈ pre, (r.id == tid) = false)
      ∧ (r0.id == tid) = true
      ∧ t1 = applyUpdate now u (Task.ofRecord freshId now r0) := by
  intro store
  induction store with
  | nil =>
    intro _ tasks' t1 h
    cases h
  | cons r rs ih =>
    intro hWF tasks' t1 h
    have hWFr : WFRecord r := hWF r (List.mem_cons_self r rs)
    have hWFrs : ∀ x ∈ rs, WFRecord x := fun x hx => hWF x (List.mem_cons_of_mem r hx)
    simp only [List.map_cons, replaceFirst] at h
    by_cases hp : ((Task.ofRecord freshId now r).id == tid) = true
    · rw [if_pos hp] at h
      injection h with h
      injection h with hl ht
      refine ⟨[], r, rs, rfl, ?_, by simp, ?_, ht.symm⟩
      · rw [← hl]
        simp only [List.map_cons, List.nil_append]
        rw [map_toJSON_ofRecord freshId now rs hWFrs, ht]
      · rw [ofRecord_id freshId now r hWFr.1] at hp
        exact hp
    · rw [if_neg hp] at h
      cases hr : replaceFirst (fun t => t.id == tid) (applyUpdate now u)
          (rs.map (Task.ofRecord freshId now)) with
      | none =>
        rw [hr] at h
        cases h
      | some pr =>
        rw [hr] at h
        rcases pr with ⟨xs', b⟩
        injection h with h
        injection h with hl ht
        obtain ⟨pre, r0, post, hs, hmap, hpre, hr0, ht1⟩ :=
          ih hWFrs xs' b hr
        refine ⟨r :: pre, r0, post, by rw [hs, List.cons_append], ?_, ?_, hr0,
          by rw [← ht, ht1]⟩
        · rw [← hl]
          simp only [List.map_cons, List.cons_append, List.cons.injEq]
          exact ⟨toJSON_ofRecord freshId now r hWFr, by rw [hmap, ht]⟩
        · intro x hx
          rcases List.mem_cons.mp hx with hx | hx
          · subst hx
            rw [ofRecord_id freshId now _ hWFr.1] at hp
            exact Bool.eq_false_iff.mpr hp
          · exact hpre x hx

/-- **C10** — a successful `update(id, partial)` changes only the targeted
record in the persisted collection (records before and after it are
byte-identical), and the targeted task keeps its id and createdAt. -/
theorem C10_update_frame (vd : JStr → Bool) (freshId : JStr) (now : Nat)
    (tid : JStr) (u : UpdateData) (store : List TaskRecord)
    (t : Task) (st' : List TaskRecord)
    (hWF : ∀ r ∈ store, WFRecord r)
    (hok : Task.update vd freshId now tid u store = .updated t st') :
    ∃ pre r0 post, store = pre ++ r0 :: post
      ∧ st' = pre ++ Task.toJSON t :: post
      ∧ (∀ r ∈ pre, (r.id == tid) = false)
      ∧ (r0.id == tid) = true
      ∧ (Task.toJSON t).id = r0.id
      ∧ (Task.toJSON t).createdAt = r0.createdAt := by
  have hok' := hok
  simp only [Task.update] at hok'
  cases hrf : replaceFirst (fun t => t.id == tid) (applyUpdate now u)
      (store.map (Task.ofRecord freshId now)) with
  | none =>
    rw [hrf] at hok'
    exact absurd hok' (by simp)
  | some pr =>
    rcases pr with ⟨tasks', t1⟩
    rw [hrf] at hok'
    by_cases hv : (Task.validate vd t1).isValid = true
    · simp only [hv, if_true] at hok'
      injection hok' with ht hst
      obtain ⟨pre, r0, post, hs, hmap, hpre, hr0, ht1⟩ :=
        update_frame_aux freshId now tid u store hWF tasks' t1 hrf
      subst ht
      refine ⟨pre, r0, post, hs, by rw [← hst, hmap], hpre, hr0, ?_, ?_⟩
      · show t1.id = r0.id
        rw [ht1, (applyUpdate_id_createdAt now u _).1,
          ofRecord_id freshId now r0
            (hWF r0 (hs ▸ List.mem_append_right pre (List.mem_cons_self r0 post))).1]
      · show t1.createdAt = r0.createdAt
        rw [ht1, (applyUpdate_id_createdAt now u _).2, ofRecord_createdAt]
    · simp only [hv, if_false] at hok'
      exact absurd hok' (by simp)

/-- Witness for C10: an empty partial applied to a one-record store. -/
theorem C10_witness :
    ∃ pre r0 post, [recA] = pre ++ r0 :: post
      ∧ [Task.toJSON (applyUpdate 200 {} (Task.ofRecord (str "u") 200 recA))]
          = pre ++ Task.toJSON (applyUpdate 200 {} (Task.ofRecord (str "u") 200 recA)) :: post
      ∧ (∀ r ∈ pre, (r.id == str "t1") = false)
      ∧ (r0.id == str "t1") = true
      ∧ (Task.toJSON (applyUpdate 200 {} (Task.ofRecord (str "u") 200 recA))).id = r0.id
      ∧ (Task.toJSON (applyUpdate 200 {} (Task.ofRecord (str "u") 200 recA))).createdAt
          = r0.createdAt :=
  C10_update_frame (fun _ => true) (str "u") 200 (str "t1") {} [recA]
    (applyUpdate 200 {} (Task.ofRecord (str "u") 200 recA))
    [Task.toJSON (applyUpdate 200 {} (Task.ofRecord (str "u") 200 recA))]
    (by decide) (by decide)

end TaskManager
